import Mathlib

/-!
Verification of the configuration resolver, settings store, provider
persistence, project prompt loader and agent evaluation harness of the
gptme repository (src/gptme/config.py and src/gptme/eval/agents.py).

The Python code is shallowly embedded: dictionaries become association
lists, the structure-preserving TOML document (tomlkit) becomes an
ordered list of entries (key/value pairs and structural comments),
exceptions become `Except`, and Python truthiness of `str | None`
values is modelled explicitly (`None` and `""` are falsy).
-/

/-! ## Config resolver (Config.get_env / Config.get_env_required)

`os.environ` and the persisted `env` mapping are string-to-string
mappings, modelled as association lists looked up with `List.lookup`.
-/

/-- Python `a or b` on `str | None` operands: `a` is returned when it is
truthy (not `None` and not the empty string), otherwise `b`. -/
def pyOr (a b : Option String) : Option String :=
  match a with
  | some s => if s = "" then b else some s
  | none => b

/-- Embedding of `Config.get_env`:
`return os.environ.get(key) or self.env.get(key) or default`. -/
def get_env (environ cfgEnv : List (String × String)) (key : String)
    (default : Option String) : Option String :=
  pyOr (List.lookup key environ) (pyOr (List.lookup key cfgEnv) default)

/-- The `KeyError` message raised by `Config.get_env_required`. -/
def envNotSetMsg (key : String) : String :=
  "Environment variable " ++ key ++ " not set in env or config, see README."

/-- Embedding of `Config.get_env_required`:
`if val := os.environ.get(key) or self.env.get(key): return val` and a
raised `KeyError` otherwise (modelled as `Except.error`). -/
def get_env_required (environ cfgEnv : List (String × String)) (key : String) :
    Except String String :=
  match pyOr (List.lookup key environ) (List.lookup key cfgEnv) with
  | some v => if v = "" then .error (envNotSetMsg key) else .ok v
  | none => .error (envNotSetMsg key)

/-- Claim C1 counterexample: with the process environment variable `FOO`
set (to the empty string) and `env.FOO = "stale"` persisted, the claim's
stated precedence ("value of the process environment variable if set")
predicts `""`, but `get_env` returns `"stale"`. -/
theorem get_env_cex :
    List.lookup "FOO" [("FOO", "")] = some "" ∧
    get_env [("FOO", "")] [("FOO", "stale")] "FOO" none = some "stale" ∧
    (some "stale" : Option String) ≠ some "" :=
  ⟨rfl, rfl, by decide⟩

/-- Claim C1 (amended): `Config.get_env` resolves with the precedence
process environment variable if set to a non-empty value, otherwise the
persisted `env` value if present and non-empty, otherwise the supplied
default, otherwise null; in particular with process environment
`FOO=live` and persisted `env.FOO=stale` it returns `"live"`. -/
theorem get_env_amended (environ cfgEnv : List (String × String)) (key : String)
    (default : Option String) :
    (∀ v, List.lookup key environ = some v → v ≠ "" →
      get_env environ cfgEnv key default = some v) ∧
    ((List.lookup key environ = none ∨ List.lookup key environ = some "") →
      (∀ v, List.lookup key cfgEnv = some v → v ≠ "" →
        get_env environ cfgEnv key default = some v) ∧
      ((List.lookup key cfgEnv = none ∨ List.lookup key cfgEnv = some "") →
        get_env environ cfgEnv key default = default)) ∧
    get_env [("FOO", "live")] [("FOO", "stale")] "FOO" none = some "live" := by
  refine ⟨?_, ?_, rfl⟩
  · intro v hv hne
    simp [get_env, pyOr, hv, hne]
  · rintro (h | h)
    · refine ⟨?_, ?_⟩
      · intro v hv hne
        simp [get_env, pyOr, h, hv, hne]
      · rintro (h' | h') <;> simp [get_env, pyOr, h, h']
    · refine ⟨?_, ?_⟩
      · intro v hv hne
        simp [get_env, pyOr, h, hv, hne]
      · rintro (h' | h') <;> simp [get_env, pyOr, h, h']

/-- Claim C1 witness: the amended precedence applied at the concrete
spec example (`FOO=live` in the environment, `env.FOO=stale` persisted). -/
theorem get_env_amended_witness :
    get_env [("FOO", "live")] [("FOO", "stale")] "FOO" none = some "live" :=
  (get_env_amended [("FOO", "live")] [("FOO", "stale")] "FOO" none).1
    "live" rfl (by decide)

/-- Claim C8 counterexample: `FOO` is set (to the empty string) in the
process environment, yet `get_env_required` raises; the claim's "raises
if and only if the key is unset in both" is therefore false. -/
theorem get_env_required_cex :
    List.lookup "FOO" [("FOO", "")] = some "" ∧
    get_env_required [("FOO", "")] [] "FOO" = .error (envNotSetMsg "FOO") :=
  ⟨rfl, rfl⟩

/-- Claim C8 (amended): `Config.get_env_required` returns the first
non-empty value under the same precedence (process environment, then
persisted env mapping) and raises exactly when no non-empty value exists
at either level; no default is ever substituted. -/
theorem get_env_required_amended (environ cfgEnv : List (String × String))
    (key : String) :
    (∀ v, List.lookup key environ = some v → v ≠ "" →
      get_env_required environ cfgEnv key = .ok v) ∧
    ((List.lookup key environ = none ∨ List.lookup key environ = some "") →
      (∀ v, List.lookup key cfgEnv = some v → v ≠ "" →
        get_env_required environ cfgEnv key = .ok v) ∧
      ((List.lookup key cfgEnv = none ∨ List.lookup key cfgEnv = some "") →
        get_env_required environ cfgEnv key = .error (envNotSetMsg key))) := by
  refine ⟨?_, ?_⟩
  · intro v hv hne
    simp [get_env_required, pyOr, hv, hne]
  · rintro (h | h)
    · refine ⟨?_, ?_⟩
      · intro v hv hne
        simp [get_env_required, pyOr, h, hv, hne]
      · rintro (h' | h') <;> simp [get_env_required, pyOr, h, h']
    · refine ⟨?_, ?_⟩
      · intro v hv hne
        simp [get_env_required, pyOr, h, hv, hne]
      · rintro (h' | h') <;> simp [get_env_required, pyOr, h, h']

/-- Claim C8 witness: the amended contract applied at a key present only
in the process environment, and at a key absent everywhere. -/
theorem get_env_required_amended_witness :
    get_env_required [("FOO", "live")] [] "FOO" = .ok "live" ∧
    get_env_required [] [] "BAR" = .error (envNotSetMsg "BAR") :=
  ⟨(get_env_required_amended [("FOO", "live")] [] "FOO").1 "live" rfl (by decide),
   ((get_env_required_amended [] [] "BAR").2 (Or.inl rfl)).2 (Or.inl rfl)⟩

/-- Claim C9: in both `get_env` and `get_env_required` a present but
empty-string value is treated as unset — an empty process environment
value makes the lookup behave as if the environment did not contain the
key, and an empty persisted value as if the persisted mapping did not
contain it. -/
theorem empty_value_falls_through (environ cfgEnv : List (String × String))
    (key : String) (default : Option String) :
    (List.lookup key environ = some "" →
      get_env environ cfgEnv key default = get_env [] cfgEnv key default ∧
      get_env_required environ cfgEnv key = get_env_required [] cfgEnv key) ∧
    (List.lookup key cfgEnv = some "" →
      get_env environ cfgEnv key default = get_env environ [] key default ∧
      get_env_required environ cfgEnv key = get_env_required environ [] key) := by
  refine ⟨?_, ?_⟩
  · intro h
    constructor <;> simp [get_env, get_env_required, pyOr, h]
  · intro h
    refine ⟨?_, ?_⟩
    · cases he : List.lookup key environ with
      | none => simp [get_env, pyOr, h, he]
      | some v =>
        by_cases hv : v = "" <;> simp [get_env, pyOr, h, he, hv]
    · cases he : List.lookup key environ with
      | none => simp [get_env_required, pyOr, h, he]
      | some v =>
        by_cases hv : v = "" <;> simp [get_env_required, pyOr, h, he, hv]

/-- Claim C9 witness: empty values fall through at a concrete input
(`FOO=""` in the environment, `env.FOO="x"` persisted). -/
theorem empty_value_falls_through_witness :
    get_env [("FOO", "")] [("FOO", "x")] "FOO" none =
      get_env [] [("FOO", "x")] "FOO" none ∧
    get_env_required [("FOO", "")] [("FOO", "x")] "FOO" =
      get_env_required [] [("FOO", "x")] "FOO" :=
  (empty_value_falls_through [("FOO", "")] [("FOO", "x")] "FOO" none).1 rfl

/-! ## Settings store (tomlkit document model)

The persisted TOML document is an ordered list of entries; an entry is a
string-valued key, a nested table, or a structural comment.  This mirrors
tomlkit's structure-preserving container: lookups skip comments, setting
an existing key replaces it in place, setting a new key appends, and
`add(comment(...))` appends a comment at the end of the container.
-/

/-- An entry of a tomlkit container: a string value under a key, a nested
table under a key, or a structural comment. -/
inductive Entry : Type where
  | kvStr (k : String) (v : String)
  | kvTable (k : String) (entries : List Entry)
  | cmt (text : String)

/-- The key of an entry; comments have none. -/
def keyOf : Entry → Option String
  | .kvStr k _ => some k
  | .kvTable k _ => some k
  | .cmt _ => none

/-- Container lookup (`d.get(key)` / `key in d`): the first entry with
the given key. -/
def getE : List Entry → String → Option Entry
  | [], _ => none
  | e :: es, k => if keyOf e = some k then some e else getE es k

/-- Container item assignment (`d[key] = value`): replaces the first
entry with the given key in place, or appends when the key is absent. -/
def setE : List Entry → String → Entry → List Entry
  | [], _, e' => [e']
  | e :: es, k, e' => if keyOf e = some k then e' :: es else e :: setE es k e'

/-- Container deletion (`del d[key]`): removes the first entry with the
given key. -/
def delE : List Entry → String → List Entry
  | [], _ => []
  | e :: es, k => if keyOf e = some k then es else e :: delE es k

/-- The keys of a container, comments skipped. -/
def keysOf (d : List Entry) : List String :=
  d.filterMap keyOf

/-- Helper for `pySplit`: the accumulated current segment is kept in
reverse. -/
def pySplitAux (sep : Char) : List Char → List Char → List String
  | [], cur => [String.mk cur.reverse]
  | c :: cs, cur =>
    if c = sep then String.mk cur.reverse :: pySplitAux sep cs []
    else pySplitAux sep cs (c :: cur)

/-- Python `str.split(sep)` for a one-character separator (used as
`key.split(".")`); `""` splits to `[""]`, like in Python. -/
def pySplit (sep : Char) (s : String) : List String :=
  pySplitAux sep s.toList []

/-- Python truthiness of a tomlkit item: a string is truthy when
non-empty, a table when it has at least one key, a comment never
(comments are not values). -/
def truthyE : Entry → Bool
  | .kvStr _ s => s != ""
  | .kvTable _ es => !(keysOf es).isEmpty
  | .cmt _ => false

/-- The text of the comment built by `comment_out`:
`f"{_key} = {value} # {extra_comment}"`.  A table value would be
rendered by tomlkit's own serializer; that case is not exercised by any
claim and is modelled by a placeholder. -/
def commentText (k : String) (e : Entry) (extra_comment : String) : String :=
  match e with
  | .kvStr _ s => k ++ " = " ++ s ++ " # " ++ extra_comment
  | .kvTable _ _ => k ++ " = <table> # " ++ extra_comment
  | .cmt t => k ++ " = " ++ t ++ " # " ++ extra_comment

/-- Core of `set_config_value`: `d = doc; for key in keypath[:-1]:
d = d.get(key, {}); d[keypath[-1]] = value`.  When an intermediate key
is missing, `d.get(key, {})` yields a fresh mapping that is NOT attached
to the document, so the final assignment mutates a detached object and
the document is returned unchanged.  When an intermediate value is a
string, the next `.get`/item assignment on it raises (`Except.error`). -/
def setPath (value : String) : List String → List Entry → Except Unit (List Entry)
  | [], d => .ok d
  | [k], d => .ok (setE d k (.kvStr k value))
  | k :: k' :: rest, d =>
    match getE d k with
    | some (.kvTable k0 sub) =>
      match setPath value (k' :: rest) sub with
      | .ok sub' => .ok (setE d k (.kvTable k0 sub'))
      | .error e => .error e
    | some _ => .error ()
    | none => .ok d

/-- Embedding of `set_config_value(key, value)`.  Loading the document
from disk, writing it back and reassigning the process-wide `_config`
cache are modelled by passing the parsed document in and returning the
updated document. -/
def set_config_value (doc : List Entry) (key value : String) :
    Except Unit (List Entry) :=
  setPath value (pySplit '.' key) doc

/-- Core of `comment_out`: same `d.get(key, {})` traversal, then
`if value := d.get(_key, None): del d[_key]; d.add(comment(...))`.
The walrus test uses Python truthiness, `del` removes the entry, and
`add` appends the comment at the END of the container. -/
def commentOutPath (extra_comment : String) :
    List String → List Entry → Except Unit (List Entry)
  | [], d => .ok d
  | [k], d =>
    match getE d k with
    | some e =>
      if truthyE e then
        .ok (delE d k ++ [.cmt (commentText k e extra_comment)])
      else .ok d
    | none => .ok d
  | k :: k' :: rest, d =>
    match getE d k with
    | some (.kvTable k0 sub) =>
      match commentOutPath extra_comment (k' :: rest) sub with
      | .ok sub' => .ok (setE d k (.kvTable k0 sub'))
      | .error e => .error e
    | some _ => .error ()
    | none => .ok d

/-- Embedding of `comment_out(key, extra_comment)`; document IO and the
cache reload are modelled as in `set_config_value`. -/
def comment_out (doc : List Entry) (key extra_comment : String) :
    Except Unit (List Entry) :=
  commentOutPath extra_comment (pySplit '.' key) doc

/-- Pure lookup of a dot-path in the document (used only to state
properties; performs no mutation and no detached-mapping behavior). -/
def getPath : List String → List Entry → Option Entry
  | [], _ => none
  | [k], d => getE d k
  | k :: k' :: rest, d =>
    match getE d k with
    | some (.kvTable _ sub) => getPath (k' :: rest) sub
    | _ => none

/-- Resolves the parent table of a dot-path: the containing table's
entries together with the leaf key, provided every intermediate key
exists and is a table. -/
def resolvesTo : List String → List Entry → Option (List Entry × String)
  | [], _ => none
  | [k], d => some (d, k)
  | k :: k' :: rest, d =>
    match getE d k with
    | some (.kvTable _ sub) => resolvesTo (k' :: rest) sub
    | _ => none

/-- The `about_activitywatch` default prompt text. -/
def ABOUT_ACTIVITYWATCH : String :=
  "ActivityWatch is a free and open-source automated time-tracker that helps you track how you spend your time on your devices."

/-- The `about_gptme` default prompt text. -/
def ABOUT_GPTME : String :=
  "gptme is a CLI to interact with large language models in a Chat-style interface, enabling the assistant to execute commands and code on the local machine, letting them assist in all kinds of development and terminal-based work."

/-- The document written on first load, from `default_config`. -/
def default_config_doc : List Entry :=
  [.kvTable "prompt"
     [.kvStr "about_user" "I am a curious human programmer.",
      .kvStr "response_preference" "Basic concepts don't need to be explained.",
      .kvTable "project"
        [.kvStr "activitywatch" ABOUT_ACTIVITYWATCH,
         .kvStr "gptme" ABOUT_GPTME]],
   .kvTable "env" []]

/-- The entries of the document's top-level `env` table. -/
def envTable (doc : List Entry) : List Entry :=
  match getE doc "env" with
  | some (.kvTable _ es) => es
  | _ => []

/-- The string-valued pairs of a table, i.e. the mapping `Config.env`
exposes for string entries. -/
def strPairs (es : List Entry) : List (String × String) :=
  es.filterMap fun e =>
    match e with
    | .kvStr k v => some (k, v)
    | _ => none

/-- Claim C2: evaluation of `set_config_value` at the failing input.
With a key path whose intermediate node is missing from the document
(`"a.b"` on the default document, which has only `prompt` and `env`),
the leaf is assigned on a detached mapping and the document comes back
unchanged — the claimed creation and persistence of intermediate nodes
does not happen.  The claim's concrete example does hold: `env` exists,
so `set_config_value("env.FOO", "bar")` persists and a fresh
`get_env` (with `FOO` unset in the process environment) returns
`"bar"`. -/
theorem set_config_value_drops_new_intermediates :
    set_config_value default_config_doc "a.b" "v" = .ok default_config_doc ∧
    getPath ["a", "b"] default_config_doc = none ∧
    (set_config_value default_config_doc "env.FOO" "bar").map
        (fun d => get_env [] (strPairs (envTable d)) "FOO" none) =
      .ok (some "bar") :=
  ⟨rfl, rfl, rfl⟩

/-! ## Container lemmas for the settings store -/

/-- An entry found under a key carries that key. -/
theorem getE_keyOf : ∀ (d : List Entry) (k : String) (e : Entry),
    getE d k = some e → keyOf e = some k := by
  intro d k
  induction d with
  | nil => intro e h; simp [getE] at h
  | cons x xs ih =>
    intro e h
    by_cases hx : keyOf x = some k
    · simp [getE, hx] at h
      subst h; exact hx
    · simp [getE, hx] at h
      exact ih e h

/-- Looking up the key just assigned returns the assigned entry. -/
theorem getE_setE : ∀ (d : List Entry) (k : String) (e' : Entry),
    keyOf e' = some k → getE (setE d k e') k = some e' := by
  intro d k e' hk
  induction d with
  | nil => simp [setE, getE, hk]
  | cons x xs ih =>
    by_cases hx : keyOf x = some k
    · simp [setE, getE, hx, hk]
    · simp [setE, getE, hx, ih]

/-- Reassigning the entry already present leaves the container
unchanged. -/
theorem setE_self : ∀ (d : List Entry) (k : String) (e : Entry),
    getE d k = some e → setE d k e = d := by
  intro d k e
  induction d with
  | nil => intro h; simp [getE] at h
  | cons x xs ih =>
    intro h
    by_cases hx : keyOf x = some k
    · simp [getE, hx] at h
      subst h
      simp [setE, hx]
    · simp [getE, hx] at h
      simp [setE, hx, ih h]

/-- A key that is not among the container's keys is not found. -/
theorem getE_eq_none_of_not_mem : ∀ (d : List Entry) (k : String),
    k ∉ keysOf d → getE d k = none := by
  intro d k
  induction d with
  | nil => intro _; rfl
  | cons x xs ih =>
    intro h
    cases hx : keyOf x with
    | none =>
      have : keysOf (x :: xs) = keysOf xs := by simp [keysOf, List.filterMap_cons, hx]
      rw [this] at h
      simp [getE, hx, ih h]
    | some k' =>
      have : keysOf (x :: xs) = k' :: keysOf xs := by
        simp [keysOf, List.filterMap_cons, hx]
      rw [this] at h
      simp only [List.mem_cons, not_or] at h
      have hne : keyOf x ≠ some k := by
        rw [hx]; intro hc; exact h.1 (Option.some.inj hc).symm
      simp [getE, hne, ih h.2]

/-- In a container without duplicate keys, deletion removes the key. -/
theorem getE_delE : ∀ (d : List Entry) (k : String),
    (keysOf d).Nodup → getE (delE d k) k = none := by
  intro d k
  induction d with
  | nil => intro _; rfl
  | cons x xs ih =>
    intro h
    by_cases hx : keyOf x = some k
    · have hfm : keysOf (x :: xs) = k :: keysOf xs := by
        simp [keysOf, List.filterMap_cons, hx]
      rw [hfm] at h
      have hnotin := (List.nodup_cons.mp h).1
      simp [delE, hx, getE_eq_none_of_not_mem xs k hnotin]
    · cases hkx : keyOf x with
      | none =>
        have : keysOf (x :: xs) = keysOf xs := by
          simp [keysOf, List.filterMap_cons, hkx]
        rw [this] at h
        simp [delE, getE, hkx, ih h]
      | some k' =>
        have : keysOf (x :: xs) = k' :: keysOf xs := by
          simp [keysOf, List.filterMap_cons, hkx]
        rw [this] at h
        rw [hkx] at hx
        simp [delE, getE, hkx, hx, ih (List.nodup_cons.mp h).2]

/-- A key absent from a prefix is looked up in the suffix. -/
theorem getE_append_of_none : ∀ (xs ys : List Entry) (k : String),
    getE xs k = none → getE (xs ++ ys) k = getE ys k := by
  intro xs ys k
  induction xs with
  | nil => intro _; rfl
  | cons x xs ih =>
    intro h
    by_cases hx : keyOf x = some k
    · simp [getE, hx] at h
    · simp [getE, hx] at h ⊢
      exact ih h

/-- `getPath` looks the leaf key up in the table `resolvesTo` finds. -/
theorem getPath_resolvesTo : ∀ (path : List String) (d sub : List Entry)
    (k : String), resolvesTo path d = some (sub, k) →
    getPath path d = getE sub k := by
  intro path
  induction path with
  | nil => intro d sub k h; simp [resolvesTo] at h
  | cons k0 rest ih =>
    intro d sub k h
    cases rest with
    | nil =>
      simp [resolvesTo] at h
      obtain ⟨h1, h2⟩ := h
      subst h1
      subst h2
      rfl
    | cons k1 rest' =>
      simp only [resolvesTo] at h
      cases hg : getE d k0 with
      | none =>
        rw [hg] at h
        exact Option.noConfusion h
      | some e =>
        cases e with
        | kvStr k' v =>
          rw [hg] at h
          exact Option.noConfusion h
        | kvTable k' sub' =>
          rw [hg] at h
          simp only [getPath, hg]
          exact ih sub' sub k h
        | cmt t =>
          rw [hg] at h
          exact Option.noConfusion h

/-- Behavior of the `comment_out` traversal on a path all of whose
intermediate nodes exist as tables: a truthy string leaf is deleted and
re-added as a comment at the end of its containing table; an absent
leaf leaves the document unchanged. -/
theorem commentOutPath_spec (extra_comment : String) :
    ∀ (path : List String) (d sub : List Entry) (k : String),
      resolvesTo path d = some (sub, k) →
      ((∀ s, getE sub k = some (.kvStr k s) → s ≠ "" →
          ∃ d', commentOutPath extra_comment path d = .ok d' ∧
            resolvesTo path d' =
              some (delE sub k ++
                [.cmt (commentText k (.kvStr k s) extra_comment)], k)) ∧
       (getE sub k = none → commentOutPath extra_comment path d = .ok d)) := by
  intro path
  induction path with
  | nil => intro d sub k h; simp [resolvesTo] at h
  | cons k0 rest ih =>
    intro d sub k h
    cases rest with
    | nil =>
      simp [resolvesTo] at h
      obtain ⟨h1, h2⟩ := h
      subst h1
      subst h2
      refine ⟨?_, ?_⟩
      · intro s hs hne
        refine ⟨delE d k0 ++
          [.cmt (commentText k0 (.kvStr k0 s) extra_comment)], ?_, ?_⟩
        · have htr : truthyE (.kvStr k0 s) = true := by
            simp [truthyE, hne]
          simp [commentOutPath, hs, htr]
        · simp [resolvesTo]
      · intro h0
        simp [commentOutPath, h0]
    | cons k1 rest' =>
      simp only [resolvesTo] at h
      cases hg : getE d k0 with
      | none =>
        rw [hg] at h
        exact Option.noConfusion h
      | some e =>
        cases e with
        | kvStr k' v =>
          rw [hg] at h
          exact Option.noConfusion h
        | kvTable k' subT =>
          rw [hg] at h
          have hk' : k' = k0 := by
            have := getE_keyOf d k0 _ hg
            simpa [keyOf] using this
          subst hk'
          obtain ⟨ih1, ih2⟩ := ih subT sub k h
          refine ⟨?_, ?_⟩
          · intro s hs hne
            obtain ⟨sub'', hs1, hs2⟩ := ih1 s hs hne
            refine ⟨setE d k' (.kvTable k' sub''), ?_, ?_⟩
            · simp [commentOutPath, hg, hs1]
            · have hget : getE (setE d k' (.kvTable k' sub'')) k' =
                  some (.kvTable k' sub'') :=
                getE_setE d k' _ (by simp [keyOf])
              simp only [resolvesTo, hget]
              exact hs2
          · intro h0
            have := ih2 h0
            simp [commentOutPath, hg, this, setE_self d k' _ hg]
        | cmt t =>
          rw [hg] at h
          exact Option.noConfusion h

/-- Claim C3 (amended): for a key path whose intermediate nodes all
exist as tables, `comment_out` with a leaf that exists with a truthy
(non-empty string) value removes the leaf and appends it as a structural
comment of the form `key = value # annotation` at the END of the
containing table (not at the leaf's old position), so a subsequent load
no longer exposes the key; with an absent leaf it is a no-op and raises
no error.  In both cases the document is written back and the cached
Config invalidated (modelled by returning the document that is
rewritten and reloaded). -/
theorem comment_out_amended (doc : List Entry) (key extra_comment : String)
    (sub : List Entry) (k : String)
    (hres : resolvesTo (pySplit '.' key) doc = some (sub, k)) :
    (∀ s, getE sub k = some (.kvStr k s) → s ≠ "" → (keysOf sub).Nodup →
      ∃ doc', comment_out doc key extra_comment = .ok doc' ∧
        resolvesTo (pySplit '.' key) doc' =
          some (delE sub k ++
            [.cmt (commentText k (.kvStr k s) extra_comment)], k) ∧
        getPath (pySplit '.' key) doc' = none) ∧
    (getE sub k = none → comment_out doc key extra_comment = .ok doc) := by
  obtain ⟨h1, h2⟩ :=
    commentOutPath_spec extra_comment (pySplit '.' key) doc sub k hres
  refine ⟨?_, h2⟩
  intro s hs hne hnd
  obtain ⟨doc', hd1, hd2⟩ := h1 s hs hne
  refine ⟨doc', hd1, hd2, ?_⟩
  rw [getPath_resolvesTo _ _ _ _ hd2]
  rw [getE_append_of_none _ _ _ (getE_delE sub k hnd)]
  simp [getE, keyOf]

/-- A document whose `env` table holds `FOO = "x"` followed by
`BAR = "y"`; used to exhibit where `comment_out` places the comment. -/
def docPos : List Entry :=
  [.kvTable "env" [.kvStr "FOO" "x", .kvStr "BAR" "y"]]

/-- Claim C3 counterexample: commenting out `env.FOO` in a table
`[FOO = "x", BAR = "y"]` produces `[BAR = "y", <comment>]` — the comment
is appended at the end of the table, not re-inserted at `FOO`'s old
position (which would give `[<comment>, BAR = "y"]`); and commenting out
a leaf that exists with the empty-string value leaves the document
unchanged instead of removing the leaf. -/
theorem comment_out_cex :
    comment_out docPos "env.FOO" "dep" =
      .ok [.kvTable "env" [.kvStr "BAR" "y", .cmt "FOO = x # dep"]] ∧
    ([Entry.kvStr "BAR" "y", Entry.cmt "FOO = x # dep"] ≠
      [Entry.cmt "FOO = x # dep", Entry.kvStr "BAR" "y"]) ∧
    comment_out [.kvTable "env" [.kvStr "FOO" ""]] "env.FOO" "dep" =
      .ok [.kvTable "env" [.kvStr "FOO" ""]] ∧
    getE [Entry.kvStr "FOO" ""] "FOO" = some (.kvStr "FOO" "") :=
  ⟨rfl, by intro h; injection h with h1 _; injection h1, rfl, rfl⟩

/-- Claim C3 witness: the amended behavior applied at `docPos` —
`comment_out("env.FOO", "dep")` removes the leaf, appends the comment
`FOO = x # dep` at the end of the `env` table and a lookup of the key
afterwards finds nothing. -/
theorem comment_out_amended_witness :
    ∃ doc', comment_out docPos "env.FOO" "dep" = .ok doc' ∧
      resolvesTo (pySplit '.' "env.FOO") doc' =
        some (delE [Entry.kvStr "FOO" "x", Entry.kvStr "BAR" "y"] "FOO" ++
          [Entry.cmt (commentText "FOO" (Entry.kvStr "FOO" "x") "dep")],
          "FOO") ∧
      getPath (pySplit '.' "env.FOO") doc' = none :=
  (comment_out_amended docPos "env.FOO" "dep"
      [Entry.kvStr "FOO" "x", Entry.kvStr "BAR" "y"] "FOO" rfl).1
    "x" rfl (by decide) (by decide)

/-! ## Agent evaluation harness (GPTMe.act)

The chat engine is an external collaborator: its outcome (normal
completion, `SystemExit`, `KeyboardInterrupt`, or any other exception)
is an input of the model.  `act` is embedded as a function from the
state of the world (whether the derived workspace directory already
exists, the optional input files, the chat outcome, and the files
present in the workspace when `download()` runs) to the list of file
operations it performs, in order, together with its result.
`FileExistsError` is the spec's `WorkspaceConflict`; any non-swallowed
chat-engine exception is the spec's `AgentFault`.
-/

/-- How the external chat engine invocation ends. -/
inductive ChatOutcome where
  | completed
  | systemExit
  | keyboardInterrupt
  | failure (msg : String)
deriving DecidableEq

/-- The errors `act` can propagate to its caller. -/
inductive AgentError where
  | workspaceConflict (dir : String)
  | agentFault (msg : String)
deriving DecidableEq

/-- The file operations `act` performs. -/
inductive FileOp where
  | upload
  | invokeChat
  | download
deriving DecidableEq

/-- The operations performed and the returned value of one `act`
invocation. -/
structure ActResult where
  ops : List FileOp
  result : Except AgentError (List (String × String))

/-- Embedding of `GPTMe.act`: raise `FileExistsError` when the derived
workspace directory exists (before any file operation); otherwise
upload the input files when truthy, invoke the chat engine swallowing
`SystemExit` and `KeyboardInterrupt`, and download and return the files
present in the workspace.  Any other chat-engine exception propagates
and no snapshot is downloaded. -/
def act (workspace_dir : String) (workspaceExists : Bool)
    (files : Option (List (String × String))) (chat : ChatOutcome)
    (filesNow : List (String × String)) : ActResult :=
  if workspaceExists then
    ⟨[], .error (.workspaceConflict workspace_dir)⟩
  else
    let uploads : List FileOp :=
      match files with
      | none => []
      | some l => if l = [] then [] else [.upload]
    match chat with
    | .failure msg => ⟨uploads ++ [.invokeChat], .error (.agentFault msg)⟩
    | _ => ⟨uploads ++ [.invokeChat, .download], .ok filesNow⟩

/-- Claim C4: a `SystemExit` or `KeyboardInterrupt` raised by the chat
engine is swallowed and `act` still downloads and returns the files
present in the workspace at that moment; every other chat-engine
exception propagates to the caller and no file snapshot is returned
(no download is performed). -/
theorem act_contains_interrupts (wd : String)
    (files : Option (List (String × String)))
    (filesNow : List (String × String)) (msg : String) :
    (act wd false files .systemExit filesNow).result = .ok filesNow ∧
    (act wd false files .keyboardInterrupt filesNow).result = .ok filesNow ∧
    FileOp.download ∈ (act wd false files .systemExit filesNow).ops ∧
    FileOp.download ∈ (act wd false files .keyboardInterrupt filesNow).ops ∧
    (act wd false files (.failure msg) filesNow).result =
      .error (.agentFault msg) ∧
    FileOp.download ∉ (act wd false files (.failure msg) filesNow).ops := by
  refine ⟨rfl, rfl, ?_, ?_, rfl, ?_⟩ <;>
    cases files with
    | none => simp [act]
    | some l => by_cases hl : l = [] <;> simp [act, hl]

/-- Claim C5: when the derived workspace directory already exists,
`act` fails with the workspace-conflict error and performs no file
operation — no upload, no chat-engine invocation, no download. -/
theorem act_workspace_conflict (wd : String)
    (files : Option (List (String × String))) (chat : ChatOutcome)
    (filesNow : List (String × String)) :
    (act wd true files chat filesNow).result =
      .error (.workspaceConflict wd) ∧
    (act wd true files chat filesNow).ops = [] :=
  ⟨rfl, rfl⟩

/-! ## Provider config (Provider, LLMAPIConfig.save_to_config) -/

/-- The closed provider enumeration.  The `AZURE_OPENAI` member's string
value is `"azure"`; Python's `local` is spelled `local_` here because
`local` is a Lean keyword. -/
inductive Provider where
  | openai
  | azure_openai
  | anthropic
  | openrouter
  | local_
deriving DecidableEq

/-- The string value of each provider member. -/
def Provider.value : Provider → String
  | .openai => "openai"
  | .azure_openai => "azure"
  | .anthropic => "anthropic"
  | .openrouter => "openrouter"
  | .local_ => "local"

/-- Embedding of `LLMAPIConfig`.  `endpoint: HttpUrl | None` is modelled
as an optional string (a parsed URL is never falsy, and `str(endpoint)`
is its string form). -/
structure LLMAPIConfig where
  endpoint : Option String
  token : String
  provider : Provider
  model : Option String

/-- Embedding of the `_envvar_endpoint` property: the endpoint variable
name exists only for `openai` and `azure_openai`; empty otherwise. -/
def LLMAPIConfig.envvar_endpoint (c : LLMAPIConfig) : String :=
  if c.provider = Provider.openai ∨ c.provider = Provider.azure_openai then
    "API_ENDPOINT"
  else ""

/-- The `set_config_value` calls issued by `save_to_config`, in order,
and whether the no-endpoint warning was logged. -/
structure SaveCalls where
  calls : List (String × String)
  warned : Bool
deriving DecidableEq

/-- Embedding of `LLMAPIConfig.save_to_config`: always persists the
token under `env.API_KEY` and the provider id under `env.API_PROVIDER`;
when the provider has no endpoint variable, logs a warning and returns
without touching model or endpoint; otherwise persists the model when
truthy and the endpoint when set. -/
def LLMAPIConfig.save_to_config (c : LLMAPIConfig) : SaveCalls :=
  let base := [("env.API_KEY", c.token), ("env.API_PROVIDER", c.provider.value)]
  if c.envvar_endpoint = "" then
    ⟨base, true⟩
  else
    let withModel := base ++
      (match c.model with
       | some m => if m = "" then [] else [("env.API_MODEL", m)]
       | none => [])
    let withEndpoint := withModel ++
      (match c.endpoint with
       | some e => [("env." ++ c.envvar_endpoint, e)]
       | none => [])
    ⟨withEndpoint, false⟩

/-- Applies a list of `set_config_value` calls to a document in
sequence. -/
def applyCalls (doc : List Entry) (calls : List (String × String)) :
    Except Unit (List Entry) :=
  calls.foldlM (fun d kv => set_config_value d kv.1 kv.2) doc

/-- Claim C6: `save_to_config` always issues `env.API_KEY := token` and
`env.API_PROVIDER := provider id` as its first two persistence calls;
for every provider other than `openai` and `azure_openai` it warns and
issues nothing else — even when the model and endpoint fields are
populated — and in particular the anthropic example persists exactly
`API_KEY` and `API_PROVIDER` into the document's `env` table, with no
`API_MODEL` or `API_ENDPOINT` key. -/
theorem save_to_config_spec (c : LLMAPIConfig) :
    c.save_to_config.calls.take 2 =
      [("env.API_KEY", c.token), ("env.API_PROVIDER", c.provider.value)] ∧
    (¬(c.provider = Provider.openai ∨ c.provider = Provider.azure_openai) →
      c.save_to_config =
        ⟨[("env.API_KEY", c.token), ("env.API_PROVIDER", c.provider.value)],
         true⟩) ∧
    ((LLMAPIConfig.mk (some "http://x") "t" Provider.anthropic
        (some "m")).save_to_config =
      ⟨[("env.API_KEY", "t"), ("env.API_PROVIDER", "anthropic")], true⟩) ∧
    ((applyCalls default_config_doc
        (LLMAPIConfig.mk none "t" Provider.anthropic none).save_to_config.calls).map
          (fun d => strPairs (envTable d)) =
      .ok [("API_KEY", "t"), ("API_PROVIDER", "anthropic")]) := by
  refine ⟨?_, ?_, rfl, rfl⟩
  · by_cases h : c.envvar_endpoint = "" <;>
      simp [LLMAPIConfig.save_to_config, h, List.take]
  · intro h
    have he : c.envvar_endpoint = "" := by
      simp [LLMAPIConfig.envvar_endpoint, h]
    simp [LLMAPIConfig.save_to_config, he]

/-- Claim C6 witness: the no-endpoint branch applied at the anthropic
example with populated model and endpoint fields. -/
theorem save_to_config_spec_witness :
    (LLMAPIConfig.mk (some "http://x") "t" Provider.anthropic
        (some "m")).save_to_config =
      ⟨[("env.API_KEY", "t"), ("env.API_PROVIDER", "anthropic")], true⟩ :=
  (save_to_config_spec
      (LLMAPIConfig.mk (some "http://x") "t" Provider.anthropic
        (some "m"))).2.1 (by decide)

/-! ## Project prompt loader (get_workspace_prompt)

The filesystem is an association list from path to text content.  The
two external collaborators excluded by the spec are parameters:
`parseFiles` models `ProjectConfig(**tomlkit.load(f)).files` (the TOML
parser applied to the chosen config file's content) and `globExpand`
models `glob.glob(pattern)`, whose matches are resolved against the
process's current working directory `cwd` — `glob.glob` receives only
the pattern, never the workspace directory. -/

/-- Filesystem lookup: the content of the file at a path, when it
exists. -/
def fsLookup (fs : List (String × String)) (p : String) : Option String :=
  List.lookup p fs

/-- `Path(file).name`: the final path component. -/
def baseName (p : String) : String :=
  match (pySplit '/' p).reverse with
  | [] => ""
  | x :: _ => x

/-- One fenced block of the prompt:
`f"\x60\x60\x60{Path(file).name}\n{Path(file).read_text()}\n\x60\x60\x60"`. -/
def renderBlock (fs : List (String × String)) (f : String) : String :=
  "```" ++ baseName f ++ "\n" ++ ((fsLookup fs f).getD "") ++ "\n```"

/-- The fixed header preceding the fenced blocks. -/
def workspace_header : String :=
  "\n\nSelected project files, read more with cat:\n"

/-- The existence check over the resolved files followed by the joined
rendering: `exit(1)` when any resolved file is missing (modelled as
`Except.error`), otherwise the header plus the `"\n\n"`-joined fenced
blocks in resolution order. -/
def render_files (fs : List (String × String)) (files : List String) :
    Except Unit String :=
  if files.all (fun f => (fsLookup fs f).isSome) then
    .ok (workspace_header ++
      String.intercalate "\n\n" (files.map (renderBlock fs)))
  else .error ()

/-- Embedding of `get_workspace_prompt(workspace)`: checks
`<workspace>/gptme.toml` then `<workspace>/.github/gptme.toml`, uses the
first that exists, returns `""` when neither exists, and otherwise
expands every glob pattern of the parsed config against the current
working directory and renders the result. -/
def get_workspace_prompt (fs : List (String × String))
    (parseFiles : String → List String)
    (globExpand : String → String → List String)
    (cwd workspace : String) : Except Unit String :=
  match fsLookup fs (workspace ++ "/gptme.toml"),
      fsLookup fs (workspace ++ "/.github/gptme.toml") with
  | some c, _ =>
    render_files fs ((parseFiles c).flatMap (globExpand cwd))
  | none, some c =>
    render_files fs ((parseFiles c).flatMap (globExpand cwd))
  | none, none => .ok ""

/-- A demo filesystem for the spec's `files=["*.md"]` example. -/
def demoFs : List (String × String) :=
  [("w/gptme.toml", "files = [\"*.md\"]"), ("README.md", "# Hello\nWorld")]

/-- A demo TOML parse function: the demo config lists the single
pattern `*.md`. -/
def demoParse : String → List String :=
  fun c => if c = "files = [\"*.md\"]" then ["*.md"] else []

/-- A demo glob: in any directory, `*.md` matches `README.md`. -/
def demoGlob : String → String → List String :=
  fun _ pat => if pat = "*.md" then ["README.md"] else []

/-- Claim C7: `get_workspace_prompt` checks exactly
`<workspace>/gptme.toml` then `<workspace>/.github/gptme.toml` and uses
the first that exists; it returns `""` when neither exists; when every
resolved file exists the result is the fixed header followed by one
fenced block per resolved file, in resolution order, labeled with the
file's base filename and containing the file's full content; and on the
spec's example (`files=["*.md"]` with `README.md` present) the result
contains the fenced block labeled `README.md` with that file's exact
content. -/
theorem get_workspace_prompt_spec (fs : List (String × String))
    (parseFiles : String → List String)
    (globExpand : String → String → List String) (cwd workspace : String) :
    (fsLookup fs (workspace ++ "/gptme.toml") = none →
      fsLookup fs (workspace ++ "/.github/gptme.toml") = none →
      get_workspace_prompt fs parseFiles globExpand cwd workspace = .ok "") ∧
    (∀ c, fsLookup fs (workspace ++ "/gptme.toml") = some c →
      get_workspace_prompt fs parseFiles globExpand cwd workspace =
        render_files fs ((parseFiles c).flatMap (globExpand cwd))) ∧
    (∀ c, fsLookup fs (workspace ++ "/gptme.toml") = none →
      fsLookup fs (workspace ++ "/.github/gptme.toml") = some c →
      get_workspace_prompt fs parseFiles globExpand cwd workspace =
        render_files fs ((parseFiles c).flatMap (globExpand cwd))) ∧
    (∀ files : List String, (∀ f ∈ files, (fsLookup fs f).isSome) →
      render_files fs files =
        .ok (workspace_header ++
          String.intercalate "\n\n" (files.map (renderBlock fs)))) ∧
    (get_workspace_prompt demoFs demoParse demoGlob "." "w" =
      .ok (workspace_header ++ "```README.md\n# Hello\nWorld\n```")) := by
  refine ⟨?_, ?_, ?_, ?_, rfl⟩
  · intro h1 h2
    simp [get_workspace_prompt, h1, h2]
  · intro c h1
    simp [get_workspace_prompt, h1]
  · intro c h1 h2
    simp [get_workspace_prompt, h1, h2]
  · intro files hall
    have : files.all (fun f => (fsLookup fs f).isSome) = true := by
      rw [List.all_eq_true]
      intro f hf
      exact hall f hf
    simp [render_files, this]

/-- Claim C7 witness: with neither candidate config present the prompt
is empty. -/
theorem get_workspace_prompt_spec_witness :
    get_workspace_prompt [] demoParse demoGlob "." "w" = .ok "" :=
  (get_workspace_prompt_spec [] demoParse demoGlob "." "w").1 rfl rfl

/-- A filesystem with one project config and an `a.md` in each of two
candidate working directories, with different contents. -/
def cwdFs : List (String × String) :=
  [("w/gptme.toml", "files = [\"*.md\"]"),
   ("dirA/a.md", "alpha"), ("dirB/a.md", "beta")]

/-- Parse function for `cwdFs`'s config. -/
def cwdParse : String → List String :=
  fun c => if c = "files = [\"*.md\"]" then ["*.md"] else []

/-- A glob whose matches for `*.md` are the `a.md` of the current
working directory — as `glob.glob` resolves patterns against the
process's working directory. -/
def cwdGlob : String → String → List String :=
  fun cwd pat => if pat = "*.md" then [cwd ++ "/a.md"] else []

/-- `cwdFs` extended with a second workspace `v` holding an identical
project config. -/
def cwdFs2 : List (String × String) :=
  ("v/gptme.toml", "files = [\"*.md\"]") :: cwdFs

/-- Claim C10: the glob patterns of the project config are expanded
against the caller's current working directory, not the workspace — two
workspaces whose chosen configs parse to the same patterns yield the
same prompt under the same cwd, while the same workspace yields
different prompts (rendering different files) under different cwds. -/
theorem glob_expands_relative_to_cwd :
    (∀ (fs : List (String × String)) (pf : String → List String)
        (g : String → String → List String) (cwd ws ws' c c' : String),
      fsLookup fs (ws ++ "/gptme.toml") = some c →
      fsLookup fs (ws' ++ "/gptme.toml") = some c' →
      pf c = pf c' →
      get_workspace_prompt fs pf g cwd ws =
        get_workspace_prompt fs pf g cwd ws') ∧
    (get_workspace_prompt cwdFs cwdParse cwdGlob "dirA" "w" =
      .ok (workspace_header ++ "```a.md\nalpha\n```")) ∧
    (get_workspace_prompt cwdFs cwdParse cwdGlob "dirB" "w" =
      .ok (workspace_header ++ "```a.md\nbeta\n```")) ∧
    (workspace_header ++ "```a.md\nalpha\n```" ≠
      workspace_header ++ "```a.md\nbeta\n```") := by
  refine ⟨?_, rfl, rfl, by decide⟩
  intro fs pf g cwd ws ws' c c' h1 h2 hpf
  simp [get_workspace_prompt, h1, h2, hpf]

/-- Claim C10 witness: applied to two distinct workspaces of `cwdFs2`
holding identical configs, the prompts coincide for the same cwd. -/
theorem glob_expands_relative_to_cwd_witness :
    get_workspace_prompt cwdFs2 cwdParse cwdGlob "dirA" "w" =
      get_workspace_prompt cwdFs2 cwdParse cwdGlob "dirA" "v" :=
  glob_expands_relative_to_cwd.1 cwdFs2 cwdParse cwdGlob "dirA" "w" "v"
    "files = [\"*.md\"]" "files = [\"*.md\"]" rfl rfl rfl
